import Mathlib

/-!
# Verification of the microservices-golang broker and benchmark harness

Shallow embedding of the two source files:
* `broker-service/cmd/api/main.go` — the RabbitMQ connection manager
  (`connect`) and the startup logic of `main`;
* the benchmark harness (`benchmarkHTTP`, `benchmarkRabbitMQ`,
  `benchmarkGRPC`, `calculateResult`, `printResult`, `printSummary`,
  and `main`'s positional-argument parsing).

Durations are modelled in the units the code uses: the back-off values of
`connect` in whole seconds, latencies in nanoseconds (Go's `time.Duration`
is an integer nanosecond count; measured latencies are non-negative, so we
use `Nat`). Go's `float64` arithmetic for the throughput is modelled
over `ℚ` (the quantities involved are exact at spec precision).
Request counters (`int` in Go) are modelled as `Nat`: every run reachable
from the CLI has non-negative counts, and Go's truncating integer division
agrees with `Nat` division on non-negative operands.
-/

set_option autoImplicit false

namespace Broker

/-! ## Connection manager (`connect` in broker-service/cmd/api/main.go)

The dial oracle `dial : Nat → Bool` tells whether the `amqp.Dial` on
attempt number `k` (0-indexed) succeeds. The loop in the Go source:

* on a failed dial, increments `counts`;
* returns `(nil, err)` as soon as `counts > 5`;
* otherwise sleeps `counts²` seconds (`counts` already incremented) and
  retries.

`ConnectTrace` records the observable behaviour of one run: the sleep
durations in seconds, the number of dial attempts made, and the result
(`some k` = connected on attempt `k`; `none` = nil connection plus a
non-nil error). -/

structure ConnectTrace where
  sleeps : List Nat
  dials : Nat
  result : Option Nat
  deriving Repr, DecidableEq

/-- One iteration of the retry loop of `connect`, at dial attempt number
`attempt` with `counts` prior failures recorded. Mirrors main.go lines
92–111: dial; on success break; on failure increment `counts`, bail out
once `counts > 5`, else sleep `counts²` seconds and continue. -/
def connectAux (dial : Nat → Bool) (attempt counts : Nat) : ConnectTrace :=
  if dial attempt then
    { sleeps := [], dials := 1, result := some attempt }
  else if counts + 1 > 5 then
    { sleeps := [], dials := 1, result := none }
  else
    let t := connectAux dial (attempt + 1) (counts + 1)
    { sleeps := (counts + 1) * (counts + 1) :: t.sleeps
      dials := t.dials + 1
      result := t.result }
termination_by 6 - counts
decreasing_by omega

/-- `connect` from main.go lines 86–114: the retry loop started with
`counts = 0` at the first dial attempt. -/
def connect (dial : Nat → Bool) : ConnectTrace :=
  connectAux dial 0 0

/-- `main` (main.go lines 27–33): if `connect` returned an error the
process logs and exits with status 1; otherwise it proceeds to serve. -/
inductive MainAction where
  | exitProcess
  | serve
  deriving Repr, DecidableEq

def mainStartup (dial : Nat → Bool) : MainAction :=
  match (connect dial).result with
  | none => .exitProcess
  | some _ => .serve

/-! ## Benchmark harness

One call of a worker loop in `benchmarkHTTP` / `benchmarkRabbitMQ` /
`benchmarkGRPC` has one of four outcomes, matching the branches of the Go
code: `http.NewRequest` fails (`reqError`, counted as a failure before the
timer result is used), `client.Do` returns an error (`doError`), the
response is nil (`nilResp`), or a response with some HTTP status code
arrives (`resp`). Latency is the measured `time.Since(reqStart)` in
nanoseconds. -/

inductive CallOutcome where
  | reqError
  | doError (latency : Nat)
  | nilResp (latency : Nat)
  | resp (status : Nat) (latency : Nat)
  deriving Repr, DecidableEq

/-- The success criterion of the worker loops: the negation of
`err != nil || resp == nil || resp.StatusCode != http.StatusAccepted`
(202 is `http.StatusAccepted`). -/
def isAccepted : CallOutcome → Bool
  | .resp status _ => status == 202
  | _ => false

/-- The latencies of exactly the accepted calls, in order. -/
def successLatencies (outs : List CallOutcome) : List Nat :=
  outs.filterMap fun o =>
    match o with
    | .resp status lat => if status == 202 then some lat else none
    | _ => none

/-- The mutex-guarded shared state of one benchmark run: the `successes`
and `failures` counters and the `latencies` slice. -/
structure Collector where
  successes : Nat
  failures : Nat
  latencies : List Nat
  deriving Repr, DecidableEq

/-- One append/increment under the lock, mirroring the classification in
the worker loop: a request-construction error counts a failure and skips
the rest of the iteration; otherwise
`err != nil || resp == nil || resp.StatusCode != 202` counts a failure,
and only the remaining (accepted) case counts a success and appends the
measured latency. -/
def recordOutcome (c : Collector) (o : CallOutcome) : Collector :=
  match o with
  | .reqError => { c with failures := c.failures + 1 }
  | .doError _ => { c with failures := c.failures + 1 }
  | .nilResp _ => { c with failures := c.failures + 1 }
  | .resp status lat =>
    if status ≠ 202 then { c with failures := c.failures + 1 }
    else { c with successes := c.successes + 1
                  latencies := c.latencies ++ [lat] }

/-- The collector state after all workers have finished, folded over the
per-call outcomes in the (arbitrary, lock-serialised) order in which the
workers reached the critical section. -/
def runWorkers (outs : List CallOutcome) : Collector :=
  outs.foldl recordOutcome { successes := 0, failures := 0, latencies := [] }

/-- The outcomes of a whole run: `concurrency` workers, each issuing
`perWorker` calls; `outcomes i j` is the outcome of iteration `j` of
worker `i`. -/
def runOutcomes (outcomes : Nat → Nat → CallOutcome)
    (concurrency perWorker : Nat) : List CallOutcome :=
  ((List.range concurrency).map
    (fun i => (List.range perWorker).map (outcomes i))).flatten

/-- `BenchmarkResult` from the harness source. Durations in nanoseconds,
`Throughput` in requests per second as a rational. -/
structure BenchmarkResult where
  method : String
  totalTime : Nat
  requests : Nat
  successes : Nat
  failures : Nat
  avgLatency : Nat
  minLatency : Nat
  maxLatency : Nat
  throughput : ℚ
  deriving Repr, DecidableEq

/-- The statistics loop of `calculateResult`: running sum, and the
running minimum/maximum updated by `if lat < min` / `if lat > max`. -/
def statsLoop : List Nat → Nat → Nat → Nat → Nat × Nat × Nat
  | [], sum, mn, mx => (sum, mn, mx)
  | lat :: rest, sum, mn, mx =>
      statsLoop rest (sum + lat)
        (if lat < mn then lat else mn)
        (if mx < lat then lat else mx)

/-- `calculateResult` from the harness source: on an empty latency slice
it returns the result with only the counters set (latency statistics and
throughput left at Go's zero values); otherwise it folds the statistics
loop started at `latencies[0]`, takes the integer-division average, and
computes `float64(successes) / totalTime.Seconds()`. -/
def calculateResult (method : String) (totalTime : Nat)
    (latencies : List Nat) (successes failures totalRequests : Nat) :
    BenchmarkResult :=
  match latencies with
  | [] =>
    { method := method, totalTime := totalTime, requests := totalRequests
      successes := successes, failures := failures
      avgLatency := 0, minLatency := 0, maxLatency := 0, throughput := 0 }
  | l0 :: rest =>
    let s := statsLoop (l0 :: rest) 0 l0 l0
    { method := method, totalTime := totalTime, requests := totalRequests
      successes := successes, failures := failures
      avgLatency := s.1 / (l0 :: rest).length
      minLatency := s.2.1
      maxLatency := s.2.2
      throughput := (successes : ℚ) / ((totalTime : ℚ) / 1000000000) }

/-- The common shape of `benchmarkHTTP` / `benchmarkRabbitMQ` /
`benchmarkGRPC`: `requestsPerGoroutine = totalRequests / concurrency`
iterations for each of `concurrency` workers, all classified into the
shared collector, then reduced by `calculateResult`. `totalTime` is the
measured wall-clock time of the run in nanoseconds. -/
def benchmarkRun (method : String) (totalRequests concurrency : Nat)
    (outcomes : Nat → Nat → CallOutcome) (totalTime : Nat) :
    BenchmarkResult :=
  let requestsPerGoroutine := totalRequests / concurrency
  let c := runWorkers (runOutcomes outcomes concurrency requestsPerGoroutine)
  calculateResult method totalTime c.latencies c.successes c.failures
    totalRequests

def benchmarkHTTP (totalRequests concurrency : Nat)
    (outcomes : Nat → Nat → CallOutcome) (totalTime : Nat) :
    BenchmarkResult :=
  benchmarkRun "HTTP" totalRequests concurrency outcomes totalTime

def benchmarkRabbitMQ (totalRequests concurrency : Nat)
    (outcomes : Nat → Nat → CallOutcome) (totalTime : Nat) :
    BenchmarkResult :=
  benchmarkRun "RabbitMQ" totalRequests concurrency outcomes totalTime

def benchmarkGRPC (totalRequests concurrency : Nat)
    (outcomes : Nat → Nat → CallOutcome) (totalTime : Nat) :
    BenchmarkResult :=
  benchmarkRun "gRPC" totalRequests concurrency outcomes totalTime

/-! ## Report rendering (`printResult`, `printSummary`)

Each printed field is either a numeric value (a duration in nanoseconds,
an integer count, or a rate) or the literal marker string `"N/A"`; this
abstracts the `fmt.Printf` verbs while keeping the value/marker
distinction the spec talks about. -/

inductive ReportValue where
  | dur (ns : Nat)
  | int (n : Nat)
  | rate (q : ℚ)
  | na
  deriving Repr, DecidableEq

/-- `printResult`: always prints Total Time / Requests / Successes /
Failures; prints the latency statistics and throughput lines only when
`result.Successes > 0`. -/
def printResult (r : BenchmarkResult) : List (String × ReportValue) :=
  [("Total Time", .dur r.totalTime),
   ("Requests", .int r.requests),
   ("Successes", .int r.successes),
   ("Failures", .int r.failures)] ++
  (if 0 < r.successes then
    [("Avg Latency", .dur r.avgLatency),
     ("Min Latency", .dur r.minLatency),
     ("Max Latency", .dur r.maxLatency),
     ("Throughput", .rate r.throughput)]
   else [])

/-- One row of the summary table: Method, Avg Latency, Throughput,
Success, Failure. -/
structure SummaryRow where
  method : String
  avgLatency : ReportValue
  throughput : ReportValue
  successes : Nat
  failures : Nat
  deriving Repr, DecidableEq

/-- `printSummary`: with `result.Successes > 0` the average latency and
throughput are printed as values; otherwise both are printed as the
literal `"N/A"`. -/
def printSummary (r : BenchmarkResult) : SummaryRow :=
  if 0 < r.successes then
    { method := r.method, avgLatency := .dur r.avgLatency
      throughput := .rate r.throughput
      successes := r.successes, failures := r.failures }
  else
    { method := r.method, avgLatency := .na, throughput := .na
      successes := r.successes, failures := r.failures }

/-! ## CLI argument parsing (`main` of the harness)

`fmt.Sscanf(arg, "%d", &x)` assigns `x` on success and leaves `x`
unchanged on error. Its `%d` verb first runs `ss.SkipSpace` with
`nlIsSpace = false`: runs of fmt's space characters are skipped, but a
newline (and `\r` directly followed by `\n`, which Go treats as a
newline) is an error. It then accepts an optional sign and at least one
ASCII decimal digit, ignores whatever follows the digit run, and feeds
the token to `strconv.ParseInt(tok, 10, 64)` (`int` is 64-bit in this
deployment), which errors — leaving the default — when the value is
outside `[-2⁶³, 2⁶³ - 1]`. -/

/-- The `space` rune table of fmt/scan.go, used by `ss.SkipSpace`. -/
def fmtIsSpace (c : Char) : Bool :=
  (0x09 ≤ c.toNat && c.toNat ≤ 0x0d) || c.toNat == 0x20 ||
  c.toNat == 0x85 || c.toNat == 0xa0 || c.toNat == 0x1680 ||
  (0x2000 ≤ c.toNat && c.toNat ≤ 0x200a) ||
  c.toNat == 0x2028 || c.toNat == 0x2029 || c.toNat == 0x202f ||
  c.toNat == 0x205f || c.toNat == 0x3000

/-- `ss.SkipSpace` with `nlIsSpace = false` (the `Sscanf` case): a `\r`
immediately followed by `\n` is consumed as a newline and a newline is
the error "unexpected newline" (`none`); any other space-table rune is
skipped; the first non-space rune ends the skip. -/
def skipSpace : List Char → Option (List Char)
  | [] => some []
  | '\r' :: '\n' :: _ => none
  | '\n' :: _ => none
  | c :: rest => if fmtIsSpace c then skipSpace rest else some (c :: rest)

def digitsVal (ds : List Char) : Nat :=
  ds.foldl (fun a c => a * 10 + (c.toNat - 48)) 0

def parseNatDigits (cs : List Char) : Option Nat :=
  let ds := cs.takeWhile Char.isDigit
  if ds.isEmpty then none else some (digitsVal ds)

/-- The `%d` verb of `fmt.Sscanf` on one argument string: skip leading
space (erroring on a newline), accept one optional sign, scan the
ASCII-digit run (erroring if it is empty), ignore the rest, and range
check the signed value against int64. -/
def sscanfD (s : String) : Option Int :=
  match skipSpace s.data with
  | none => none
  | some cs =>
    let signed : Bool × List Char :=
      match cs with
      | '-' :: rest => (true, rest)
      | '+' :: rest => (false, rest)
      | rest => (false, rest)
    match parseNatDigits signed.2 with
    | none => none
    | some n =>
      let v : Int := if signed.1 then -(n : Int) else (n : Int)
      if -(2 ^ 63) ≤ v ∧ v ≤ 2 ^ 63 - 1 then some v else none

/-- The positional-argument handling of the harness `main`
(`os.Args`, index 0 being the program name): `brokerURL` defaults to
`http://broker-service` and is replaced by `os.Args[1]` whenever present;
`requests` defaults to 100 and `concurrency` to 10, each reassigned by
`fmt.Sscanf(os.Args[n], "%d", …)` when present, which leaves the default
in place when the argument does not parse. -/
def parseArgs (args : List String) : String × Int × Int :=
  let brokerURL :=
    if 1 < args.length then args.getD 1 "" else "http://broker-service"
  let requests : Int :=
    if 2 < args.length then (sscanfD (args.getD 2 "")).getD 100 else 100
  let concurrency : Int :=
    if 3 < args.length then (sscanfD (args.getD 3 "")).getD 10 else 10
  (brokerURL, requests, concurrency)

/-! ## Helper lemmas -/

/-- Generic shape of a successful run of `connectAux`: if the `k` dials
starting at attempt `a` fail and the next one succeeds, and the failure
budget is not exhausted, the sleeps are `(c+1)², (c+2)², …, (c+k)²`
seconds and the connection is made on attempt `a + k`. -/
theorem connectAux_success (dial : Nat → Bool) :
    ∀ (k a c : Nat), c + k ≤ 5 →
    (∀ i, i < k → dial (a + i) = false) → dial (a + k) = true →
    connectAux dial a c =
      { sleeps := (List.range k).map (fun n => (c + n + 1) * (c + n + 1))
        dials := k + 1
        result := some (a + k) } := by
  intro k
  induction k with
  | zero =>
    intro a c _ _ hsucc
    rw [connectAux]
    simp at hsucc
    simp [hsucc]
  | succ k ih =>
    intro a c hle hfail hsucc
    have h0 : dial a = false := by
      have := hfail 0 (Nat.succ_pos k)
      simpa using this
    have hc : ¬ (c + 1 > 5) := by omega
    rw [connectAux]
    simp only [h0, Bool.false_eq_true, if_false, hc]
    have hrec := ih (a + 1) (c + 1) (by omega)
      (fun i hi => by
        have := hfail (i + 1) (by omega)
        simpa [Nat.add_assoc, Nat.add_comm 1 i] using this)
      (by
        have : a + 1 + k = a + (k + 1) := by omega
        rw [this]; exact hsucc)
    rw [hrec]
    have harr : a + 1 + k = a + (k + 1) := by omega
    have hfun : ((fun n => (c + n + 1) * (c + n + 1)) ∘ Nat.succ) =
        (fun n => (c + 1 + n + 1) * (c + 1 + n + 1)) := by
      funext n
      simp only [Function.comp_apply, Nat.succ_eq_add_one]
      ring
    have hmap : (List.range (k + 1)).map
          (fun n => (c + n + 1) * (c + n + 1)) =
        (c + 1) * (c + 1) ::
          (List.range k).map (fun n => (c + 1 + n + 1) * (c + 1 + n + 1)) := by
      rw [List.range_succ_eq_map]
      simp [List.map_map, hfun]
    simp [harr, hmap]

/-- Generic shape of a failed run of `connectAux`: if the next
`fuel + 1` dials from attempt `a` all fail and `6 - c = fuel + 1`, the
loop makes exactly `fuel + 1` more attempts, sleeping
`(c+1)², …` seconds between them, and returns an error. -/
theorem connectAux_failure (dial : Nat → Bool) :
    ∀ (fuel a c : Nat), 6 - c = fuel + 1 →
    (∀ i, i ≤ fuel → dial (a + i) = false) →
    connectAux dial a c =
      { sleeps := (List.range fuel).map (fun n => (c + n + 1) * (c + n + 1))
        dials := fuel + 1
        result := none } := by
  intro fuel
  induction fuel with
  | zero =>
    intro a c hc hfail
    rw [connectAux]
    have h5 : c + 1 > 5 := by omega
    have h0 : dial a = false := by simpa using hfail 0 (by omega)
    simp [h0, h5]
  | succ fuel ih =>
    intro a c hc hfail
    rw [connectAux]
    have h5 : ¬ (c + 1 > 5) := by omega
    have h0 : dial a = false := by simpa using hfail 0 (by omega)
    simp only [h0, Bool.false_eq_true, if_false, h5]
    rw [ih (a + 1) (c + 1) (by omega)
      (fun i hi => by
        have := hfail (i + 1) (by omega)
        simpa [Nat.add_assoc, Nat.add_comm 1 i] using this)]
    have hfun : ((fun n => (c + n + 1) * (c + n + 1)) ∘ Nat.succ) =
        (fun n => (c + 1 + n + 1) * (c + 1 + n + 1)) := by
      funext n
      simp only [Function.comp_apply, Nat.succ_eq_add_one]
      ring
    have hmap : (List.range (fuel + 1)).map
          (fun n => (c + n + 1) * (c + n + 1)) =
        (c + 1) * (c + 1) ::
          (List.range fuel).map
            (fun n => (c + 1 + n + 1) * (c + 1 + n + 1)) := by
      rw [List.range_succ_eq_map]
      simp [List.map_map, hfun]
    simp [hmap]

theorem recordOutcome_successes (c : Collector) (o : CallOutcome) :
    (recordOutcome c o).successes =
      c.successes + (if isAccepted o then 1 else 0) := by
  cases o with
  | resp status lat =>
    by_cases h : status = 202 <;> simp [recordOutcome, isAccepted, h]
  | reqError => simp [recordOutcome, isAccepted]
  | doError lat => simp [recordOutcome, isAccepted]
  | nilResp lat => simp [recordOutcome, isAccepted]

theorem recordOutcome_failures (c : Collector) (o : CallOutcome) :
    (recordOutcome c o).failures =
      c.failures + (if isAccepted o then 0 else 1) := by
  cases o with
  | resp status lat =>
    by_cases h : status = 202 <;> simp [recordOutcome, isAccepted, h]
  | reqError => simp [recordOutcome, isAccepted]
  | doError lat => simp [recordOutcome, isAccepted]
  | nilResp lat => simp [recordOutcome, isAccepted]

/-- The latency contribution of a single call outcome. -/
def outLat (o : CallOutcome) : List Nat :=
  match o with
  | .resp status lat => if status == 202 then [lat] else []
  | _ => []

theorem recordOutcome_latencies (c : Collector) (o : CallOutcome) :
    (recordOutcome c o).latencies = c.latencies ++ outLat o := by
  cases o with
  | resp status lat =>
    by_cases h : status = 202 <;> simp [recordOutcome, outLat, h]
  | reqError => simp [recordOutcome, outLat]
  | doError lat => simp [recordOutcome, outLat]
  | nilResp lat => simp [recordOutcome, outLat]

theorem successLatencies_cons (o : CallOutcome) (rest : List CallOutcome) :
    successLatencies (o :: rest) = outLat o ++ successLatencies rest := by
  cases o with
  | resp status lat =>
    by_cases h : status = 202 <;>
      simp [successLatencies, outLat, List.filterMap_cons, h]
  | reqError => simp [successLatencies, outLat, List.filterMap_cons]
  | doError lat => simp [successLatencies, outLat, List.filterMap_cons]
  | nilResp lat => simp [successLatencies, outLat, List.filterMap_cons]

theorem foldl_record_successes (outs : List CallOutcome) :
    ∀ c : Collector, (outs.foldl recordOutcome c).successes =
      c.successes + outs.countP isAccepted := by
  induction outs with
  | nil => simp
  | cons o rest ih =>
    intro c
    rw [List.foldl_cons, ih, recordOutcome_successes, List.countP_cons]
    by_cases h : isAccepted o <;> simp [h] <;> omega

theorem foldl_record_failures (outs : List CallOutcome) :
    ∀ c : Collector, (outs.foldl recordOutcome c).failures =
      c.failures + outs.countP (fun o => ! isAccepted o) := by
  induction outs with
  | nil => simp
  | cons o rest ih =>
    intro c
    rw [List.foldl_cons, ih, recordOutcome_failures, List.countP_cons]
    by_cases h : isAccepted o <;> simp [h] <;> omega

theorem foldl_record_latencies (outs : List CallOutcome) :
    ∀ c : Collector, (outs.foldl recordOutcome c).latencies =
      c.latencies ++ successLatencies outs := by
  induction outs with
  | nil => simp [successLatencies]
  | cons o rest ih =>
    intro c
    rw [List.foldl_cons, ih, recordOutcome_latencies, successLatencies_cons,
      List.append_assoc]

theorem runWorkers_successes (outs : List CallOutcome) :
    (runWorkers outs).successes = outs.countP isAccepted := by
  rw [runWorkers, foldl_record_successes]
  simp

theorem runWorkers_failures (outs : List CallOutcome) :
    (runWorkers outs).failures = outs.countP (fun o => ! isAccepted o) := by
  rw [runWorkers, foldl_record_failures]
  simp

theorem runWorkers_latencies (outs : List CallOutcome) :
    (runWorkers outs).latencies = successLatencies outs := by
  rw [runWorkers, foldl_record_latencies]
  simp

theorem successLatencies_length (outs : List CallOutcome) :
    (successLatencies outs).length = outs.countP isAccepted := by
  induction outs with
  | nil => simp [successLatencies]
  | cons o rest ih =>
    rw [successLatencies_cons, List.countP_cons, List.length_append, ih]
    cases o with
    | resp status lat =>
      by_cases h : status = 202 <;>
        simp [outLat, isAccepted, h, Nat.add_comm]
    | reqError => simp [outLat, isAccepted]
    | doError lat => simp [outLat, isAccepted]
    | nilResp lat => simp [outLat, isAccepted]

theorem runOutcomes_length (outcomes : Nat → Nat → CallOutcome)
    (concurrency perWorker : Nat) :
    (runOutcomes outcomes concurrency perWorker).length =
      concurrency * perWorker := by
  induction concurrency with
  | zero => simp [runOutcomes]
  | succ k ih =>
    rw [runOutcomes, List.range_succ, List.map_append, List.flatten_append]
    simp only [List.length_append]
    rw [runOutcomes] at ih
    rw [ih]
    simp [Nat.succ_mul]

theorem statsLoop_sum (l : List Nat) :
    ∀ s mn mx, (statsLoop l s mn mx).1 = s + l.sum := by
  induction l with
  | nil => simp [statsLoop]
  | cons a t ih =>
    intro s mn mx
    rw [statsLoop, ih]
    simp
    omega

theorem statsLoop_min_le (l : List Nat) :
    ∀ s mn mx, (statsLoop l s mn mx).2.1 ≤ mn ∧
      ∀ x ∈ l, (statsLoop l s mn mx).2.1 ≤ x := by
  induction l with
  | nil => simp [statsLoop]
  | cons a t ih =>
    intro s mn mx
    have h := ih (s + a) (if a < mn then a else mn) (if mx < a then a else mx)
    constructor
    · calc (statsLoop (a :: t) s mn mx).2.1
          ≤ (if a < mn then a else mn) := h.1
        _ ≤ mn := by split <;> omega
    · intro x hx
      rcases List.mem_cons.mp hx with rfl | hx
      · calc (statsLoop (x :: t) s mn mx).2.1
            ≤ (if x < mn then x else mn) := h.1
          _ ≤ x := by split <;> omega
      · exact h.2 x hx

theorem statsLoop_min_mem (l : List Nat) :
    ∀ s mn mx, (statsLoop l s mn mx).2.1 = mn ∨
      (statsLoop l s mn mx).2.1 ∈ l := by
  induction l with
  | nil => simp [statsLoop]
  | cons a t ih =>
    intro s mn mx
    have h := ih (s + a) (if a < mn then a else mn) (if mx < a then a else mx)
    rw [statsLoop]
    rcases h with h | h
    · rw [h]
      split
      · right
        exact List.mem_cons_self a t
      · left
        rfl
    · right
      exact List.mem_cons_of_mem a h

theorem statsLoop_le_max (l : List Nat) :
    ∀ s mn mx, mx ≤ (statsLoop l s mn mx).2.2 ∧
      ∀ x ∈ l, x ≤ (statsLoop l s mn mx).2.2 := by
  induction l with
  | nil => simp [statsLoop]
  | cons a t ih =>
    intro s mn mx
    have h := ih (s + a) (if a < mn then a else mn) (if mx < a then a else mx)
    constructor
    · calc mx ≤ (if mx < a then a else mx) := by split <;> omega
        _ ≤ (statsLoop (a :: t) s mn mx).2.2 := h.1
    · intro x hx
      rcases List.mem_cons.mp hx with rfl | hx
      · calc x ≤ (if mx < x then x else mx) := by split <;> omega
          _ ≤ (statsLoop (x :: t) s mn mx).2.2 := h.1
      · exact h.2 x hx

theorem statsLoop_max_mem (l : List Nat) :
    ∀ s mn mx, (statsLoop l s mn mx).2.2 = mx ∨
      (statsLoop l s mn mx).2.2 ∈ l := by
  induction l with
  | nil => simp [statsLoop]
  | cons a t ih =>
    intro s mn mx
    have h := ih (s + a) (if a < mn then a else mn) (if mx < a then a else mx)
    rw [statsLoop]
    rcases h with h | h
    · rw [h]
      split
      · right
        exact List.mem_cons_self a t
      · left
        rfl
    · right
      exact List.mem_cons_of_mem a h

theorem length_mul_le_sum (l : List Nat) (m : Nat) (h : ∀ x ∈ l, m ≤ x) :
    l.length * m ≤ l.sum := by
  induction l with
  | nil => simp
  | cons a t ih =>
    have ha := h a (List.mem_cons_self a t)
    have ht := ih (fun x hx => h x (List.mem_cons_of_mem a hx))
    simp only [List.length_cons, List.sum_cons, Nat.succ_mul]
    omega

theorem sum_le_length_mul (l : List Nat) (M : Nat) (h : ∀ x ∈ l, x ≤ M) :
    l.sum ≤ l.length * M := by
  induction l with
  | nil => simp
  | cons a t ih =>
    have ha := h a (List.mem_cons_self a t)
    have ht := ih (fun x hx => h x (List.mem_cons_of_mem a hx))
    simp only [List.length_cons, List.sum_cons, Nat.succ_mul]
    omega

theorem calculateResult_successes (method : String) (totalTime : Nat)
    (lats : List Nat) (s f tr : Nat) :
    (calculateResult method totalTime lats s f tr).successes = s := by
  cases lats <;> rfl

theorem calculateResult_failures (method : String) (totalTime : Nat)
    (lats : List Nat) (s f tr : Nat) :
    (calculateResult method totalTime lats s f tr).failures = f := by
  cases lats <;> rfl

theorem calculateResult_requests (method : String) (totalTime : Nat)
    (lats : List Nat) (s f tr : Nat) :
    (calculateResult method totalTime lats s f tr).requests = tr := by
  cases lats <;> rfl

theorem calculateResult_totalTime (method : String) (totalTime : Nat)
    (lats : List Nat) (s f tr : Nat) :
    (calculateResult method totalTime lats s f tr).totalTime = totalTime := by
  cases lats <;> rfl

theorem countP_total {α : Type} (p : α → Bool) (l : List α) :
    l.countP p + l.countP (fun a => ! p a) = l.length := by
  induction l with
  | nil => simp
  | cons a t ih =>
    rw [List.countP_cons, List.countP_cons, List.length_cons]
    by_cases h : p a <;> simp [h] <;> omega

theorem benchmarkRun_counts (method : String) (totalRequests concurrency : Nat)
    (outcomes : Nat → Nat → CallOutcome) (totalTime : Nat) :
    (benchmarkRun method totalRequests concurrency outcomes totalTime).successes +
      (benchmarkRun method totalRequests concurrency outcomes totalTime).failures =
      concurrency * (totalRequests / concurrency) := by
  rw [benchmarkRun]
  rw [calculateResult_successes, calculateResult_failures,
    runWorkers_successes, runWorkers_failures, countP_total,
    runOutcomes_length]

/-! ## Claims -/

/-- C1 counterexample: in the run in which the first dial fails and the
second succeeds (one prior failed try), the single inter-attempt delay is
1 second, not the 0 seconds the claimed sequence `0, 1, 4, 9, 16, 25`
predicts for the first retry. -/
theorem connect_first_retry_waits_one_second :
    (connect (fun n => n == 1)).sleeps = [1] ∧
    (connect (fun n => n == 1)).sleeps ≠ List.take 1 [0, 1, 4, 9, 16, 25] := by
  have h := connectAux_success (fun n => n == 1) 1 0 0 (by omega)
    (by decide) (by decide)
  rw [connect] at *
  rw [h]
  refine ⟨by decide, by decide⟩

/-- C1 (amended): in every run of `connect` in which the first `k` dial
attempts fail and attempt `k` succeeds (`k ≤ 5`), the sequence of
inter-attempt delays is `1, 4, 9, …, k²` seconds: the delay before retry
number `n` (`n` = number of prior failed tries, `n ≥ 1`) is `n²`
seconds, so the first retry waits 1 second. -/
theorem connect_backoff_delays (dial : Nat → Bool) (k : Nat) (hk : k ≤ 5)
    (hfail : ∀ i, i < k → dial i = false) (hsucc : dial k = true) :
    (connect dial).sleeps =
      (List.range k).map (fun n => (n + 1) * (n + 1)) ∧
    (connect dial).result = some k := by
  have h := connectAux_success dial k 0 0 (by omega)
    (fun i hi => by simpa using hfail i hi) (by simpa using hsucc)
  rw [connect, h]
  simp

/-- Witness for `connect_backoff_delays`: dial succeeds on attempt 3
after three failures; the inter-attempt delays are 1, 4, 9 seconds. -/
theorem connect_backoff_delays_witness :
    (3 ≤ 5 ∧ (∀ i, i < 3 → ((fun n : Nat => n == 3) i) = false) ∧
      ((fun n : Nat => n == 3) 3) = true) ∧
    (connect (fun n : Nat => n == 3)).sleeps =
      (List.range 3).map (fun n => (n + 1) * (n + 1)) ∧
    (connect (fun n : Nat => n == 3)).result = some 3 :=
  ⟨⟨by decide, by decide, by decide⟩,
    connect_backoff_delays (fun n => n == 3) 3 (by decide) (by decide)
      (by decide)⟩

/-- C2: when the first 6 dial attempts fail, `connect` makes exactly 6
dial attempts (the first plus 5 retries), terminates, and returns a nil
connection together with a non-nil error (`result = none`); `main` then
exits the process instead of serving traffic. -/
theorem connect_exhaustion_exits (dial : Nat → Bool)
    (hfail : ∀ i, i < 6 → dial i = false) :
    (connect dial).dials = 6 ∧ (connect dial).result = none ∧
    mainStartup dial = MainAction.exitProcess := by
  have h := connectAux_failure dial 5 0 0 (by omega)
    (fun i hi => by simpa using hfail i (by omega))
  rw [connect] at *
  have hres : (connectAux dial 0 0).result = none := by rw [h]
  refine ⟨by rw [h], hres, ?_⟩
  unfold mainStartup connect
  rw [hres]

/-- Witness for `connect_exhaustion_exits`: the always-failing dial. -/
theorem connect_exhaustion_exits_witness :
    (∀ i, i < 6 → ((fun _ : Nat => false) i) = false) ∧
    (connect (fun _ : Nat => false)).dials = 6 ∧
    (connect (fun _ : Nat => false)).result = none ∧
    mainStartup (fun _ : Nat => false) = MainAction.exitProcess :=
  ⟨by decide, connect_exhaustion_exits (fun _ => false) (by decide)⟩

/-- C3: for every run of each of the three benchmark methods,
`Successes + Failures = concurrency * (totalRequests / concurrency)`
(integer division), and this equals `totalRequests` exactly when
`concurrency` divides `totalRequests`. -/
theorem benchmark_request_accounting (totalRequests concurrency : Nat)
    (outcomes : Nat → Nat → CallOutcome) (totalTime : Nat)
    (_hc : 0 < concurrency) :
    ((benchmarkHTTP totalRequests concurrency outcomes totalTime).successes +
        (benchmarkHTTP totalRequests concurrency outcomes totalTime).failures =
      concurrency * (totalRequests / concurrency)) ∧
    ((benchmarkRabbitMQ totalRequests concurrency outcomes totalTime).successes +
        (benchmarkRabbitMQ totalRequests concurrency outcomes totalTime).failures =
      concurrency * (totalRequests / concurrency)) ∧
    ((benchmarkGRPC totalRequests concurrency outcomes totalTime).successes +
        (benchmarkGRPC totalRequests concurrency outcomes totalTime).failures =
      concurrency * (totalRequests / concurrency)) ∧
    ((benchmarkHTTP totalRequests concurrency outcomes totalTime).successes +
        (benchmarkHTTP totalRequests concurrency outcomes totalTime).failures =
          totalRequests ↔
      concurrency ∣ totalRequests) := by
  refine ⟨benchmarkRun_counts _ _ _ _ _, benchmarkRun_counts _ _ _ _ _,
    benchmarkRun_counts _ _ _ _ _, ?_⟩
  rw [benchmarkHTTP, benchmarkRun_counts]
  constructor
  · intro h
    exact ⟨totalRequests / concurrency, h.symm⟩
  · intro h
    exact Nat.mul_div_cancel' h

/-- Witness for `benchmark_request_accounting`: 10 requests at
concurrency 3 issue 9 calls. -/
theorem benchmark_request_accounting_witness :
    (0 < 3) ∧
    ((benchmarkHTTP 10 3 (fun _ _ => CallOutcome.resp 202 5) 2000000000).successes +
        (benchmarkHTTP 10 3 (fun _ _ => CallOutcome.resp 202 5) 2000000000).failures =
      3 * (10 / 3)) ∧
    ((benchmarkRabbitMQ 10 3 (fun _ _ => CallOutcome.resp 202 5) 2000000000).successes +
        (benchmarkRabbitMQ 10 3 (fun _ _ => CallOutcome.resp 202 5) 2000000000).failures =
      3 * (10 / 3)) ∧
    ((benchmarkGRPC 10 3 (fun _ _ => CallOutcome.resp 202 5) 2000000000).successes +
        (benchmarkGRPC 10 3 (fun _ _ => CallOutcome.resp 202 5) 2000000000).failures =
      3 * (10 / 3)) ∧
    ((benchmarkHTTP 10 3 (fun _ _ => CallOutcome.resp 202 5) 2000000000).successes +
        (benchmarkHTTP 10 3 (fun _ _ => CallOutcome.resp 202 5) 2000000000).failures =
          10 ↔
      3 ∣ 10) :=
  ⟨by decide, benchmark_request_accounting 10 3 (fun _ _ => CallOutcome.resp 202 5)
    2000000000 (by decide)⟩

/-- C4: whenever a run of any benchmark method has at least one success,
the computed throughput equals the success count divided by the
wall-clock total time of the whole run converted to seconds — not any
quantity built from the per-call latencies. -/
theorem benchmark_throughput_wallclock (method : String)
    (totalRequests concurrency : Nat) (outcomes : Nat → Nat → CallOutcome)
    (totalTime : Nat)
    (h : 0 < (benchmarkRun method totalRequests concurrency outcomes
      totalTime).successes) :
    (benchmarkRun method totalRequests concurrency outcomes
        totalTime).throughput =
      ((benchmarkRun method totalRequests concurrency outcomes
          totalTime).successes : ℚ) /
        (((benchmarkRun method totalRequests concurrency outcomes
            totalTime).totalTime : ℚ) / 1000000000) := by
  rw [benchmarkRun] at *
  set col := runWorkers
    (runOutcomes outcomes concurrency (totalRequests / concurrency)) with hcol
  rw [calculateResult_successes] at h
  have hlen : col.latencies.length = col.successes := by
    rw [hcol, runWorkers_latencies, runWorkers_successes,
      successLatencies_length]
  cases hl : col.latencies with
  | nil =>
    rw [hl] at hlen
    simp at hlen
    omega
  | cons l0 rest =>
    simp [calculateResult]

/-- Witness for `benchmark_throughput_wallclock`: one worker, two
accepted calls, two seconds of wall-clock time. -/
theorem benchmark_throughput_wallclock_witness :
    0 < (benchmarkRun "HTTP" 2 1 (fun _ _ => CallOutcome.resp 202 5)
      2000000000).successes ∧
    (benchmarkRun "HTTP" 2 1 (fun _ _ => CallOutcome.resp 202 5)
        2000000000).throughput =
      ((benchmarkRun "HTTP" 2 1 (fun _ _ => CallOutcome.resp 202 5)
          2000000000).successes : ℚ) /
        (((benchmarkRun "HTTP" 2 1 (fun _ _ => CallOutcome.resp 202 5)
            2000000000).totalTime : ℚ) / 1000000000) :=
  ⟨by decide, benchmark_throughput_wallclock "HTTP" 2 1
    (fun _ _ => CallOutcome.resp 202 5) 2000000000 (by decide)⟩

/-- The latency statistics the spec asks of a result `r` relative to the
list `lats` of successful-call latencies: average = integer quotient of
the sum by the success count, and min/max attained on and bounding
`lats`. -/
def latencySpec (r : BenchmarkResult) (lats : List Nat) : Prop :=
  r.avgLatency = lats.sum / r.successes ∧
  (r.minLatency ∈ lats ∧ ∀ x ∈ lats, r.minLatency ≤ x) ∧
  (r.maxLatency ∈ lats ∧ ∀ x ∈ lats, x ≤ r.maxLatency)

/-- C5: the collector's latency list is exactly the latencies of the
accepted calls (failed calls contribute no sample), and with at least
one success the result's average latency is the summed successful
latencies divided by the success count, while min/max are taken over the
successful latencies only. -/
theorem benchmark_latency_stats (method : String)
    (totalRequests concurrency : Nat) (outcomes : Nat → Nat → CallOutcome)
    (totalTime : Nat)
    (h : 0 < (benchmarkRun method totalRequests concurrency outcomes
      totalTime).successes) :
    (runWorkers (runOutcomes outcomes concurrency
        (totalRequests / concurrency))).latencies =
      successLatencies (runOutcomes outcomes concurrency
        (totalRequests / concurrency)) ∧
    latencySpec (benchmarkRun method totalRequests concurrency outcomes
        totalTime)
      (successLatencies (runOutcomes outcomes concurrency
        (totalRequests / concurrency))) := by
  rw [benchmarkRun] at *
  set col := runWorkers
    (runOutcomes outcomes concurrency (totalRequests / concurrency)) with hcol
  rw [calculateResult_successes] at h
  have hpart1 : col.latencies = successLatencies
      (runOutcomes outcomes concurrency (totalRequests / concurrency)) := by
    rw [hcol, runWorkers_latencies]
  have hlen : col.latencies.length = col.successes := by
    rw [hcol, runWorkers_latencies, runWorkers_successes,
      successLatencies_length]
  refine ⟨hpart1, ?_⟩
  cases hl : col.latencies with
  | nil =>
    rw [hl] at hlen
    simp at hlen
    omega
  | cons l0 rest =>
    have hsl : successLatencies (runOutcomes outcomes concurrency
        (totalRequests / concurrency)) = l0 :: rest := by
      rw [← hpart1, hl]
    rw [hsl]
    unfold latencySpec
    have hsum := statsLoop_sum (l0 :: rest) 0 l0 l0
    have hmin := statsLoop_min_le (l0 :: rest) 0 l0 l0
    have hminm := statsLoop_min_mem (l0 :: rest) 0 l0 l0
    have hmax := statsLoop_le_max (l0 :: rest) 0 l0 l0
    have hmaxm := statsLoop_max_mem (l0 :: rest) 0 l0 l0
    have hlen' : (l0 :: rest).length = col.successes := by
      rw [← hl, hlen]
    constructor
    · rw [calculateResult_successes]
      show (statsLoop (l0 :: rest) 0 l0 l0).1 / (l0 :: rest).length =
        (l0 :: rest).sum / col.successes
      rw [hsum, hlen']
      simp
    constructor
    · constructor
      · show (statsLoop (l0 :: rest) 0 l0 l0).2.1 ∈ l0 :: rest
        rcases hminm with h' | h'
        · rw [h']
          exact List.mem_cons_self l0 rest
        · exact h'
      · intro x hx
        exact hmin.2 x hx
    · constructor
      · show (statsLoop (l0 :: rest) 0 l0 l0).2.2 ∈ l0 :: rest
        rcases hmaxm with h' | h'
        · rw [h']
          exact List.mem_cons_self l0 rest
        · exact h'
      · intro x hx
        exact hmax.2 x hx

/-- Witness for `benchmark_latency_stats`: two workers, two calls each;
three accepted calls with latencies 7, 5, 9 and one rejected call. -/
theorem benchmark_latency_stats_witness :
    0 < (benchmarkRun "HTTP" 4 2
      (fun i j => if i == 0 && j == 0 then CallOutcome.resp 500 100
        else CallOutcome.resp 202 (3 + 2 * i + 4 * j)) 2000000000).successes ∧
    (runWorkers (runOutcomes
        (fun i j => if i == 0 && j == 0 then CallOutcome.resp 500 100
          else CallOutcome.resp 202 (3 + 2 * i + 4 * j)) 2 (4 / 2))).latencies =
      successLatencies (runOutcomes
        (fun i j => if i == 0 && j == 0 then CallOutcome.resp 500 100
          else CallOutcome.resp 202 (3 + 2 * i + 4 * j)) 2 (4 / 2)) ∧
    latencySpec (benchmarkRun "HTTP" 4 2
        (fun i j => if i == 0 && j == 0 then CallOutcome.resp 500 100
          else CallOutcome.resp 202 (3 + 2 * i + 4 * j)) 2000000000)
      (successLatencies (runOutcomes
        (fun i j => if i == 0 && j == 0 then CallOutcome.resp 500 100
          else CallOutcome.resp 202 (3 + 2 * i + 4 * j)) 2 (4 / 2))) :=
  ⟨by decide, benchmark_latency_stats "HTTP" 4 2
    (fun i j => if i == 0 && j == 0 then CallOutcome.resp 500 100
      else CallOutcome.resp 202 (3 + 2 * i + 4 * j)) 2000000000 (by decide)⟩

/-- C6 counterexample: for a zero-success result the per-method report
(`printResult`) contains no field for the minimum (or maximum) latency at
all — the lines are omitted rather than printed with a "not applicable"
marker, and the whole per-method report contains no N/A marker; the only
N/A markers appear in the summary row, for the average latency and the
throughput. -/
theorem report_zero_success_counterexample :
    (calculateResult "HTTP" 1000 [] 0 10 10).successes = 0 ∧
    ((printResult (calculateResult "HTTP" 1000 [] 0 10 10)).map
      Prod.fst).contains "Min Latency" = false ∧
    ((printResult (calculateResult "HTTP" 1000 [] 0 10 10)).map
      Prod.fst).contains "Max Latency" = false ∧
    (∀ p ∈ printResult (calculateResult "HTTP" 1000 [] 0 10 10),
      p.2 ≠ ReportValue.na) ∧
    (printSummary (calculateResult "HTTP" 1000 [] 0 10 10)).avgLatency =
      ReportValue.na := by
  refine ⟨by decide, by decide, by decide, by decide, by decide⟩

/-- C6 (amended): for every result with zero successes, the summary row
reports the average latency and the throughput as the explicit marker
`N/A` (never a numeric 0), and the per-method report omits every
latency/throughput line, so no 0, NaN or sentinel value is reported for
avg/min/max latency or throughput anywhere. -/
theorem report_zero_success_na (r : BenchmarkResult)
    (h : r.successes = 0) :
    printSummary r =
      { method := r.method, avgLatency := ReportValue.na
        throughput := ReportValue.na
        successes := r.successes, failures := r.failures } ∧
    printResult r =
      [("Total Time", ReportValue.dur r.totalTime),
       ("Requests", ReportValue.int r.requests),
       ("Successes", ReportValue.int r.successes),
       ("Failures", ReportValue.int r.failures)] := by
  constructor
  · rw [printSummary]
    simp [h]
  · rw [printResult]
    simp [h]

/-- Witness for `report_zero_success_na` at the zero-success result of
an all-rejected run. -/
theorem report_zero_success_na_witness :
    (calculateResult "HTTP" 1000 [] 0 10 10).successes = 0 ∧
    printSummary (calculateResult "HTTP" 1000 [] 0 10 10) =
      { method := (calculateResult "HTTP" 1000 [] 0 10 10).method
        avgLatency := ReportValue.na
        throughput := ReportValue.na
        successes := (calculateResult "HTTP" 1000 [] 0 10 10).successes
        failures := (calculateResult "HTTP" 1000 [] 0 10 10).failures } ∧
    printResult (calculateResult "HTTP" 1000 [] 0 10 10) =
      [("Total Time",
          ReportValue.dur (calculateResult "HTTP" 1000 [] 0 10 10).totalTime),
       ("Requests",
          ReportValue.int (calculateResult "HTTP" 1000 [] 0 10 10).requests),
       ("Successes",
          ReportValue.int (calculateResult "HTTP" 1000 [] 0 10 10).successes),
       ("Failures",
          ReportValue.int (calculateResult "HTTP" 1000 [] 0 10 10).failures)] :=
  ⟨by decide,
    (report_zero_success_na (calculateResult "HTTP" 1000 [] 0 10 10)
      (by decide)).1,
    (report_zero_success_na (calculateResult "HTTP" 1000 [] 0 10 10)
      (by decide)).2⟩

/-- C7: in every run of each of the three benchmark methods, an outcome
is counted as a success exactly when it is an HTTP response with status
202 Accepted (`isAccepted`); every other outcome — transport error, nil
response, request-construction error, or a response with any other
status — is counted as a failure, never as a success. -/
theorem benchmark_only_202_succeeds (totalRequests concurrency : Nat)
    (outcomes : Nat → Nat → CallOutcome) (totalTime : Nat) :
    (∀ o : CallOutcome,
      isAccepted o = true ↔ ∃ lat, o = CallOutcome.resp 202 lat) ∧
    ((benchmarkHTTP totalRequests concurrency outcomes totalTime).successes =
        (runOutcomes outcomes concurrency
          (totalRequests / concurrency)).countP isAccepted ∧
      (benchmarkHTTP totalRequests concurrency outcomes totalTime).failures =
        (runOutcomes outcomes concurrency
          (totalRequests / concurrency)).countP (fun o => ! isAccepted o)) ∧
    ((benchmarkRabbitMQ totalRequests concurrency outcomes totalTime).successes =
        (runOutcomes outcomes concurrency
          (totalRequests / concurrency)).countP isAccepted ∧
      (benchmarkRabbitMQ totalRequests concurrency outcomes totalTime).failures =
        (runOutcomes outcomes concurrency
          (totalRequests / concurrency)).countP (fun o => ! isAccepted o)) ∧
    ((benchmarkGRPC totalRequests concurrency outcomes totalTime).successes =
        (runOutcomes outcomes concurrency
          (totalRequests / concurrency)).countP isAccepted ∧
      (benchmarkGRPC totalRequests concurrency outcomes totalTime).failures =
        (runOutcomes outcomes concurrency
          (totalRequests / concurrency)).countP (fun o => ! isAccepted o)) := by
  refine ⟨?_, ?_, ?_, ?_⟩
  · intro o
    cases o with
    | resp status lat =>
      simp only [isAccepted, beq_iff_eq]
      constructor
      · intro h'
        subst h'
        exact ⟨lat, rfl⟩
      · rintro ⟨lat', h'⟩
        injection h' with h1 h2
    | reqError => simp [isAccepted]
    | doError lat => simp [isAccepted]
    | nilResp lat => simp [isAccepted]
  all_goals
    constructor
  all_goals
    first
    | rw [benchmarkHTTP, benchmarkRun, calculateResult_successes,
        runWorkers_successes]
    | rw [benchmarkHTTP, benchmarkRun, calculateResult_failures,
        runWorkers_failures]
    | rw [benchmarkRabbitMQ, benchmarkRun, calculateResult_successes,
        runWorkers_successes]
    | rw [benchmarkRabbitMQ, benchmarkRun, calculateResult_failures,
        runWorkers_failures]
    | rw [benchmarkGRPC, benchmarkRun, calculateResult_successes,
        runWorkers_successes]
    | rw [benchmarkGRPC, benchmarkRun, calculateResult_failures,
        runWorkers_failures]

/-- C8 counterexample: a supplied second positional argument that does
not parse as an integer does NOT override the request count —
`fmt.Sscanf` fails and leaves the default 100 in place, identical to the
omitted-argument run — refuting "a supplied argument at position n
overrides exactly that parameter". -/
theorem parseArgs_unparseable_keeps_default :
    parseArgs ["benchmark", "http://x", "abc"] = ("http://x", 100, 10) ∧
    sscanfD "abc" = none ∧
    (parseArgs ["benchmark", "http://x", "abc"]).2.1 =
      (parseArgs ["benchmark", "http://x"]).2.1 := by
  refine ⟨by decide, by decide, by decide⟩

/-- C8 (amended): an omitted positional argument leaves its default
(`http://broker-service`, 100, 10); a supplied broker-URL argument
always overrides, and a supplied request-count or concurrency argument
overrides exactly when it parses as an integer under `Sscanf`'s `%d`,
otherwise that parameter keeps its default. -/
theorem parseArgs_defaults_and_overrides (prog url a2 a3 : String)
    (v2 v3 : Int) (h2 : sscanfD a2 = some v2) (h3 : sscanfD a3 = some v3) :
    parseArgs [prog] = ("http://broker-service", 100, 10) ∧
    parseArgs [prog, url] = (url, 100, 10) ∧
    parseArgs [prog, url, a2] = (url, v2, 10) ∧
    parseArgs [prog, url, a2, a3] = (url, v2, v3) ∧
    (∀ s : String, sscanfD s = none →
      parseArgs [prog, url, s] = (url, 100, 10)) := by
  refine ⟨?_, ?_, ?_, ?_, ?_⟩
  · simp [parseArgs]
  · simp [parseArgs]
  · simp [parseArgs, h2]
  · simp [parseArgs, h2, h3]
  · intro s hs
    simp [parseArgs, hs]

/-- Witness for `parseArgs_defaults_and_overrides` with parseable
arguments 42 and 7. -/
theorem parseArgs_defaults_and_overrides_witness :
    (sscanfD "42" = some 42 ∧ sscanfD "7" = some 7) ∧
    parseArgs ["benchmark"] = ("http://broker-service", 100, 10) ∧
    parseArgs ["benchmark", "http://x"] = ("http://x", 100, 10) ∧
    parseArgs ["benchmark", "http://x", "42"] = ("http://x", 42, 10) ∧
    parseArgs ["benchmark", "http://x", "42", "7"] = ("http://x", 42, 7) ∧
    (∀ s : String, sscanfD s = none →
      parseArgs ["benchmark", "http://x", s] = ("http://x", 100, 10)) :=
  ⟨⟨by decide, by decide⟩,
    parseArgs_defaults_and_overrides "benchmark" "http://x" "42" "7" 42 7
      (by decide) (by decide)⟩

/-- C9: when `concurrency` exceeds `totalRequests`, the per-worker
iteration count `totalRequests / concurrency` is 0, no calls are issued,
and the result has zero successes and zero failures while its `Requests`
field still reports the original `totalRequests`. -/
theorem benchmark_more_workers_than_requests (method : String)
    (totalRequests concurrency : Nat) (outcomes : Nat → Nat → CallOutcome)
    (totalTime : Nat) (h : totalRequests < concurrency) :
    totalRequests / concurrency = 0 ∧
    runOutcomes outcomes concurrency (totalRequests / concurrency) = [] ∧
    (benchmarkRun method totalRequests concurrency outcomes
      totalTime).successes = 0 ∧
    (benchmarkRun method totalRequests concurrency outcomes
      totalTime).failures = 0 ∧
    (benchmarkRun method totalRequests concurrency outcomes
      totalTime).requests = totalRequests := by
  have hdiv : totalRequests / concurrency = 0 := Nat.div_eq_of_lt h
  have houts : runOutcomes outcomes concurrency
      (totalRequests / concurrency) = [] := by
    rw [hdiv]
    simp [runOutcomes]
  refine ⟨hdiv, houts, ?_, ?_, ?_⟩
  · rw [benchmarkRun, calculateResult_successes, runWorkers_successes, houts]
    simp
  · rw [benchmarkRun, calculateResult_failures, runWorkers_failures, houts]
    simp
  · rw [benchmarkRun, calculateResult_requests]

/-- Witness for `benchmark_more_workers_than_requests`: 3 requests
across 5 workers. -/
theorem benchmark_more_workers_than_requests_witness :
    (3 < 5) ∧
    (3 : Nat) / 5 = 0 ∧
    runOutcomes (fun _ _ => CallOutcome.reqError) 5 (3 / 5) = [] ∧
    (benchmarkRun "HTTP" 3 5 (fun _ _ => CallOutcome.reqError)
      7).successes = 0 ∧
    (benchmarkRun "HTTP" 3 5 (fun _ _ => CallOutcome.reqError)
      7).failures = 0 ∧
    (benchmarkRun "HTTP" 3 5 (fun _ _ => CallOutcome.reqError)
      7).requests = 3 :=
  ⟨by decide, benchmark_more_workers_than_requests "HTTP" 3 5
    (fun _ _ => CallOutcome.reqError) 7 (by decide)⟩

/-- C10: for any non-empty latency list, the statistics computed by
`calculateResult` are ordered:
`MinLatency ≤ AvgLatency ≤ MaxLatency`. -/
theorem calculateResult_stats_ordered (method : String) (totalTime : Nat)
    (l0 : Nat) (rest : List Nat) (successes failures totalRequests : Nat) :
    (calculateResult method totalTime (l0 :: rest) successes failures
        totalRequests).minLatency ≤
      (calculateResult method totalTime (l0 :: rest) successes failures
        totalRequests).avgLatency ∧
    (calculateResult method totalTime (l0 :: rest) successes failures
        totalRequests).avgLatency ≤
      (calculateResult method totalTime (l0 :: rest) successes failures
        totalRequests).maxLatency := by
  have hsum := statsLoop_sum (l0 :: rest) 0 l0 l0
  have hmin := statsLoop_min_le (l0 :: rest) 0 l0 l0
  have hmax := statsLoop_le_max (l0 :: rest) 0 l0 l0
  have hpos : 0 < (l0 :: rest).length := by simp
  constructor
  · show (statsLoop (l0 :: rest) 0 l0 l0).2.1 ≤
      (statsLoop (l0 :: rest) 0 l0 l0).1 / (l0 :: rest).length
    rw [Nat.le_div_iff_mul_le hpos, hsum, Nat.zero_add, Nat.mul_comm]
    exact length_mul_le_sum (l0 :: rest) _ hmin.2
  · show (statsLoop (l0 :: rest) 0 l0 l0).1 / (l0 :: rest).length ≤
      (statsLoop (l0 :: rest) 0 l0 l0).2.2
    rw [hsum, Nat.zero_add]
    calc (l0 :: rest).sum / (l0 :: rest).length
        ≤ (l0 :: rest).length * (statsLoop (l0 :: rest) 0 l0 l0).2.2 /
            (l0 :: rest).length := by
          exact Nat.div_le_div_right (sum_le_length_mul (l0 :: rest) _ hmax.2)
      _ = (statsLoop (l0 :: rest) 0 l0 l0).2.2 := by
          exact Nat.mul_div_cancel_left _ hpos

end Broker
